import Mathlib

set_option linter.unusedVariables false

/-!
Verification development for the polyglot-key offline model lifecycle manager and
translation pipeline.

The TypeScript sources are shallowly embedded:
* pure functions become Lean functions over `Nat`/`Int`/`ℚ` and `String`;
* the `ModelManager` singleton's mutable fields become an explicit record
  (`MMState`) threaded through the operations;
* asynchronous callers (download completions, enqueues) become an event list
  folded over the state;
* filesystem and network outcomes become explicit boolean/numeric parameters
  (a transfer that may fail is a `Bool`, the cache-directory `stat` result is
  a `Nat` field);
* the IEEE-754 pieces of the confidence estimator are embedded with the
  transcendental primitives (`Math.exp`, `Math.log`, `Math.pow`) as function
  parameters, and `Option ℚ` as the number type where `none` plays the role
  of `NaN` (the only NaN source reachable in this code is the `0/0` inside
  `normalizedEntropy`).
-/

deriving instance DecidableEq for Except

namespace PolyglotKey

/-- JS `String.prototype.toLowerCase` (over the code points of the string; the
inputs of interest are ASCII, where `Char.toLower` agrees with JS). -/
def jsToLower (s : String) : String := ⟨s.data.map Char.toLower⟩

/-- JS `String.prototype.trim`: strip whitespace from both ends. -/
def jsTrim (s : String) : String :=
  ⟨((s.data.dropWhile Char.isWhitespace).reverse.dropWhile Char.isWhitespace).reverse⟩

/-! ## `constants/modelConfigs.ts` -/

/-- One entry of `MODEL_CONFIGS` (`ModelConfigItem` in `constants/modelConfigs.ts`).
`size` is in megabytes, as in the source. -/
structure ModelConfigItem where
  id : String
  name : String
  description : String
  url : String
  version : String
  size : Nat
  srcLang : String
  targetLang : String
  lastUpdated : String
deriving DecidableEq

/-- The catalog entry `en2tr-small`. -/
def en2trSmall : ModelConfigItem :=
  { id := "en2tr-small"
    name := "English to Turkish (Small)"
    description := "Compact TensorFlow.js model for English to Turkish translation"
    url := "https://tfhub.dev/tensorflow/tfjs-model/opus-mt-en-tr/1/model.json"
    version := "1.0.0"
    size := 25
    srcLang := "en"
    targetLang := "tr"
    lastUpdated := "2024-06-01" }

/-- The catalog entry `tr2en-small`. -/
def tr2enSmall : ModelConfigItem :=
  { id := "tr2en-small"
    name := "Turkish to English (Small)"
    description := "Compact TensorFlow.js model for Turkish to English translation"
    url := "https://tfhub.dev/tensorflow/tfjs-model/opus-mt-tr-en/1/model.json"
    version := "1.0.0"
    size := 25
    srcLang := "tr"
    targetLang := "en"
    lastUpdated := "2024-06-01" }

/-- The catalog entry `opus-mt-en2tr-base`. -/
def opusEn2trBase : ModelConfigItem :=
  { id := "opus-mt-en2tr-base"
    name := "OPUS-MT English to Turkish"
    description := "Base OPUS-MT model for English to Turkish translation with improved accuracy"
    url := "https://tfhub.dev/tensorflow/tfjs-model/opus-mt-en-tr/1/model.json"
    version := "1.1.0"
    size := 65
    srcLang := "en"
    targetLang := "tr"
    lastUpdated := "2024-06-05" }

/-- The static model catalog `MODEL_CONFIGS`. -/
def MODEL_CONFIGS : List ModelConfigItem := [en2trSmall, tr2enSmall, opusEn2trBase]

/-! ## `ModelManager.calculateModelPriority` (`services/modelManager.ts`) -/

/-- The fixed `languagePopularity` table inside `calculateModelPriority`. -/
def languagePopularity : List (String × Nat) :=
  [("en", 100), ("es", 90), ("fr", 80), ("de", 70), ("it", 60),
   ("pt", 55), ("ru", 50), ("ja", 45), ("ko", 40), ("zh", 85),
   ("ar", 35), ("hi", 30), ("tr", 25), ("nl", 20), ("sv", 15)]

/-- The table lookup `languagePopularity[lang] || 10`.  Every value in the table is
nonzero, so the JS `|| 10` fallback fires exactly when the key is absent. -/
def popularityScore (lang : String) : Nat :=
  (languagePopularity.lookup lang).getD 10

/-- `ModelManager.calculateModelPriority`: base is the average of the two popularity
scores, `+20` for an English side, `-10` when the byte size (MB size with the
`config.size || 15` fallback, times `1024 * 1024`) exceeds `50 * 1024 * 1024`, then
`Math.max(1, Math.round(priority))`.  `round : ℚ → ℤ` is `⌊q + 1/2⌋`, which agrees
with JS `Math.round` on every input. -/
def calculateModelPriority (config : ModelConfigItem) : ℤ :=
  let srcPop : ℚ := popularityScore config.srcLang
  let targetPop : ℚ := popularityScore config.targetLang
  let priority1 : ℚ := (srcPop + targetPop) / 2
  let priority2 : ℚ :=
    if config.srcLang = "en" ∨ config.targetLang = "en" then priority1 + 20 else priority1
  let sizeInBytes : Nat := (if config.size = 0 then 15 else config.size) * 1024 * 1024
  let priority3 : ℚ := if 50 * 1024 * 1024 < sizeInBytes then priority2 - 10 else priority2
  max 1 (round priority3)

/-- The priority-scoring rule as the specification words it: the average of the
popularity-table values of source and target (unknown languages scoring 10), plus 20
if either side is English, minus 10 if the model exceeds 50MB, rounded to the nearest
integer and clamped to a minimum of 1. -/
def prioritySpec (c : ModelConfigItem) : ℤ :=
  let base : ℚ := ((popularityScore c.srcLang : ℚ) + (popularityScore c.targetLang : ℚ)) / 2
  let boosted : ℚ := if c.srcLang = "en" ∨ c.targetLang = "en" then base + 20 else base
  let penalized : ℚ := if 50 < c.size then boosted - 10 else boosted
  max 1 (round penalized)

/-- Claim C7: the priority-scoring function is pure and deterministic, computes the
average of the popularity-table values of the two languages (unknown languages
scoring 10), adds 20 if either side is English, subtracts 10 if the model exceeds
50MB, rounds to the nearest integer and clamps to a minimum of 1; in particular an
en→tr model of 25MB (the catalog entry `en2tr-small`) scores exactly 83. -/
theorem claim_C7_priority :
    (∀ c : ModelConfigItem, calculateModelPriority c = prioritySpec c) ∧
    calculateModelPriority en2trSmall = 83 := by
  constructor
  · intro c
    unfold calculateModelPriority prioritySpec
    by_cases h0 : c.size = 0
    · simp [h0]
    · simp only [if_neg h0]
      have hsz : (50 * 1024 * 1024 < c.size * 1024 * 1024) ↔ 50 < c.size := by omega
      simp only [hsz]
  · have h1 : popularityScore "en" = 100 := by decide
    have h2 : popularityScore "tr" = 25 := by decide
    simp only [calculateModelPriority, en2trSmall, h1, h2]
    norm_num [round_eq]

/-! ## `ModelManager` state (`services/modelManager.ts`)

The singleton's mutable fields become the record `MMState`.  `Date` values are
modelled by a logical clock (`Nat`), advanced at each enqueue; the comparator
used by the queue sort never reads them, so only their relative order matters.
`FileSystem` results are explicit: `usageReading` is the value
`getCurrentStorageUsage()` returns (that method already maps a failed `stat`
to `0`), and a transfer outcome is a `Bool` parameter of `downloadModel`. -/

/-- `ModelInfo` from `services/modelManager.ts` (the `downloadJobId` field is never
written or read in the source and is omitted). -/
structure ModelInfo where
  id : String
  name : String
  url : String
  version : String
  localPath : Option String := none
  isDownloaded : Bool
  downloadProgress : Option ℚ := none
  lastChecked : Option Nat := none
  priority : Option ℤ := none
  downloadSize : Option Nat := none
  usageCount : Option Nat := none
  lastUsed : Option Nat := none
deriving DecidableEq

/-- `DownloadQueueItem` from `services/modelManager.ts`; `addedAt` is the logical
enqueue time (`new Date()` in the source). -/
structure DownloadQueueItem where
  modelId : String
  priority : ℤ
  estimatedSize : Nat
  addedAt : Nat
deriving DecidableEq

/-- Lookup in a JS `Map` modelled as an association list (`Map.get`). -/
def mapLookup {α : Type} : List (String × α) → String → Option α
  | [], _ => none
  | (k, v) :: rest, key => if k = key then some v else mapLookup rest key

/-- `Map.set`: replace the binding if the key is present, else append (JS maps
keep insertion order). -/
def mapSet {α : Type} : List (String × α) → String → α → List (String × α)
  | [], key, v => [(key, v)]
  | (k, w) :: rest, key, v =>
    if k = key then (key, v) :: rest else (k, w) :: mapSet rest key v

/-- `Set.add` on a JS `Set` modelled as a duplicate-free insertion-ordered list:
adding a present element is a no-op. -/
def jsSetAdd (s : List String) (x : String) : List String :=
  if s.contains x then s else s ++ [x]

/-- The mutable fields of the `ModelManager` singleton, plus the modelled
environment (`usageReading`, `clock`) and the observation log `startedDownloads`,
which records each invocation of `downloadModelProgressively` (the moment a
transfer is started). -/
structure MMState where
  models : List (String × ModelInfo)
  downloadQueue : List DownloadQueueItem
  activeDownloads : List String
  maxConcurrentDownloads : Nat
  maxStorageUsage : Nat
  usageReading : Nat
  clock : Nat
  modelDir : String
  startedDownloads : List String
deriving DecidableEq

/-- `ModelManager.wouldExceedStorageLimit`: `(currentUsage + additionalSize) > maxUsage`.
The surrounding `try`/`catch` that answers `false` on error is unreachable here because
`getCurrentStorageUsage` already catches and returns `0` (the `usageReading` field). -/
def wouldExceedStorageLimit (s : MMState) (additionalSize : Nat) : Bool :=
  s.maxStorageUsage < s.usageReading + additionalSize

/-- One step of the stable sort: insert `x` behind every element of priority `≥ x.priority`.
Together with `sortByPriorityDesc` this implements the observable contract of
`Array.prototype.sort((a, b) => b.priority - a.priority)`, which ECMA-262 requires to be a
stable descending sort. -/
def insertQueueItem (x : DownloadQueueItem) : List DownloadQueueItem → List DownloadQueueItem
  | [] => [x]
  | y :: ys => if y.priority < x.priority then x :: y :: ys else y :: insertQueueItem x ys

/-- Stable sort of the download queue by priority, highest first (the
`downloadQueue.sort((a, b) => b.priority - a.priority)` call in `addToDownloadQueue`). -/
def sortByPriorityDesc (l : List DownloadQueueItem) : List DownloadQueueItem :=
  l.foldl (fun acc x => insertQueueItem x acc) []

/-- The `while` loop of `ModelManager.processDownloadQueue`, recursion on the pending
queue: while there is capacity, pop the head; skip it when it would exceed the storage
limit, otherwise start it (`downloadModelProgressively` adds the id to `activeDownloads`
synchronously and is recorded in the `started` log). -/
def processQueueLoop (usageReading maxStorage maxConcurrent : Nat) :
    List DownloadQueueItem → List String → List String →
    List DownloadQueueItem × List String × List String
  | [], active, started => ([], active, started)
  | item :: rest, active, started =>
    if active.length < maxConcurrent then
      if maxStorage < usageReading + item.estimatedSize then
        processQueueLoop usageReading maxStorage maxConcurrent rest active started
      else
        processQueueLoop usageReading maxStorage maxConcurrent rest
          (jsSetAdd active item.modelId) (started ++ [item.modelId])
    else (item :: rest, active, started)

/-- `ModelManager.processDownloadQueue`. -/
def processDownloadQueue (s : MMState) : MMState :=
  let r := processQueueLoop s.usageReading s.maxStorageUsage s.maxConcurrentDownloads
    s.downloadQueue s.activeDownloads s.startedDownloads
  { s with downloadQueue := r.1, activeDownloads := r.2.1, startedDownloads := r.2.2 }

/-- `ModelManager.addToDownloadQueue`: no-op if the id is already queued or active;
otherwise push, re-sort (stably, by priority descending) and process the queue. -/
def addToDownloadQueue (s : MMState) (modelId : String) (priority : ℤ)
    (estimatedSize : Nat) : MMState :=
  if s.downloadQueue.any (fun it => it.modelId == modelId)
      || s.activeDownloads.contains modelId then s
  else
    let item : DownloadQueueItem :=
      { modelId := modelId, priority := priority, estimatedSize := estimatedSize,
        addedAt := s.clock }
    processDownloadQueue
      { s with downloadQueue := sortByPriorityDesc (s.downloadQueue ++ [item])
               clock := s.clock + 1 }

/-- Errors of the model manager.  `storageExceeded` is the spec's `StorageExceeded`
error kind; the source never constructs it — it is here so that claims about it can
be stated.  `downloadFailed` stands for whatever error the filesystem or transfer
rejected with (the `catch` in `downloadModel` rethrows it unchanged). -/
inductive MMError where
  | modelNotFound (modelId : String)
  | downloadFailed
  | deleteFailed
  | storageExceeded
deriving DecidableEq

/-- `ModelManager.downloadModel`: look the model up, return it if already downloaded,
otherwise run the transfer (`transferOk` is its outcome); on success record
`localPath`, `isDownloaded := true`, `downloadProgress := 1`; on failure rethrow.
There is no storage-quota check on this path. -/
def downloadModel (s : MMState) (modelId : String) (transferOk : Bool) :
    Except MMError ModelInfo × MMState :=
  match mapLookup s.models modelId with
  | none => (.error (.modelNotFound modelId), s)
  | some modelConfig =>
    if modelConfig.isDownloaded then (.ok modelConfig, s)
    else if transferOk then
      let updated : ModelInfo :=
        { modelConfig with
            localPath := some (s.modelDir ++ "/" ++ modelId ++ "/model.json")
            isDownloaded := true
            downloadProgress := some 1
            lastChecked := some s.clock }
      (.ok updated, { s with models := mapSet s.models modelId updated })
    else (.error .downloadFailed, s)

/-- The usage-statistics update at the top of `requestModel`. -/
def bumpUsage (model : ModelInfo) (now : Nat) : ModelInfo :=
  { model with usageCount := some ((model.usageCount.getD 0) + 1),
               lastUsed := some now }

/-- `ModelManager.requestModel`: bump usage stats; return the model if downloaded;
if `urgent`, download immediately (bypassing the queue); otherwise enqueue at
`priority + 50`. -/
def requestModel (s : MMState) (modelId : String) (urgent : Bool) (transferOk : Bool) :
    Except MMError ModelInfo × MMState :=
  match mapLookup s.models modelId with
  | none => (.error (.modelNotFound modelId), s)
  | some model =>
    let updatedModel := bumpUsage model s.clock
    let s1 := { s with models := mapSet s.models modelId updatedModel }
    if model.isDownloaded then (.ok updatedModel, s1)
    else if urgent then downloadModel s1 modelId transferOk
    else
      let boostedPriority := (model.priority.getD 1) + 50
      let s2 := addToDownloadQueue s1 modelId boostedPriority
        (model.downloadSize.getD (15 * 1024 * 1024))
      (.ok updatedModel, s2)

/-- `ModelManager.deleteModel`: a no-op (except for a log line) when the model is
unknown, not downloaded, or has no local path; otherwise `unlink` the directory
(`unlinkOk` is its outcome) and only on success reset the record; a failed unlink
rethrows and leaves `models` untouched.  A JS string is falsy exactly when empty,
hence the `getD ""` test. -/
def deleteModel (s : MMState) (modelId : String) (unlinkOk : Bool) :
    MMState × Except MMError Unit :=
  match mapLookup s.models modelId with
  | none => (s, .ok ())
  | some modelInfo =>
    if !modelInfo.isDownloaded || (modelInfo.localPath.getD "") = "" then (s, .ok ())
    else if unlinkOk then
      let updated : ModelInfo :=
        { modelInfo with localPath := none, isDownloaded := false, downloadProgress := none }
      ({ s with models := mapSet s.models modelId updated }, .ok ())
    else (s, .error .deleteFailed)

/-- The asynchronous environment of the scheduler: an `enqueue` (from
`addToDownloadQueue`, `requestModel`, or `startProgressiveDownloading`), the
completion of an active transfer — success or failure, both run the `finally`
block of `downloadModelProgressively`: remove from the active set and re-process
the queue — or `pauseProgressiveDownloading`, which clears the pending queue. -/
inductive MMEvent where
  | enqueue (modelId : String) (priority : ℤ) (estimatedSize : Nat)
  | complete (modelId : String)
  | pause
deriving DecidableEq

/-- Apply one scheduler event. -/
def applyEvent (s : MMState) : MMEvent → MMState
  | .enqueue modelId priority estimatedSize =>
    addToDownloadQueue s modelId priority estimatedSize
  | .complete modelId =>
    processDownloadQueue { s with activeDownloads := s.activeDownloads.erase modelId }
  | .pause => { s with downloadQueue := [] }

/-- Run a sequence of scheduler events. -/
def runEvents (s : MMState) (events : List MMEvent) : MMState :=
  events.foldl applyEvent s

/-- Order maintained by the download queue: priorities non-increasing, and equal
priorities ordered by enqueue time (FIFO). -/
def queueRel (a b : DownloadQueueItem) : Prop :=
  b.priority ≤ a.priority ∧ (a.priority = b.priority → a.addedAt < b.addedAt)

/-- Queue invariant: ordered by `queueRel`, and every enqueue stamp lies in the past. -/
def queueInv (s : MMState) : Prop :=
  s.downloadQueue.Pairwise queueRel ∧ ∀ it ∈ s.downloadQueue, it.addedAt < s.clock

/-- The `ModelInfo` record `initializeModelConfigs` creates for a catalog entry that
is not yet on disk. -/
def initialModelInfo (c : ModelConfigItem) (priority : ℤ) : ModelInfo :=
  { id := c.id, name := c.name, url := c.url, version := c.version,
    localPath := none, isDownloaded := false,
    priority := some priority,
    downloadSize := some ((if c.size = 0 then 15 else c.size) * 1024 * 1024),
    usageCount := some 0 }

/-- A concrete scheduler state used by the witnesses below: the three catalog models
registered and not downloaded, nothing queued or active, and the default
configuration (`maxConcurrentDownloads = 2`, `maxStorageUsage = 500MB`). -/
def mmSample : MMState :=
  { models := [("en2tr-small", initialModelInfo en2trSmall 83),
               ("tr2en-small", initialModelInfo tr2enSmall 83),
               ("opus-mt-en2tr-base", initialModelInfo opusEn2trBase 73)],
    downloadQueue := [],
    activeDownloads := [],
    maxConcurrentDownloads := 2,
    maxStorageUsage := 500 * 1024 * 1024,
    usageReading := 0,
    clock := 0,
    modelDir := "/data/ml-models",
    startedDownloads := [] }

/-- A sample event sequence: two enqueues that fill the default capacity, then three
more (two of equal priority) that stay queued, then a completion that admits one. -/
def sampleEvents : List MMEvent :=
  [.enqueue "x" 99 1000, .enqueue "y" 99 1000, .enqueue "p" 20 1000,
   .enqueue "q" 30 1000, .enqueue "r" 20 1000, .enqueue "s" 20 1000,
   .complete "x"]

/-! ## Languages and detection (`services/languageDetectionService.ts`) -/

/-- The `Language` interface of `types/translation`. -/
structure Language where
  code : String
  name : String
  nativeName : String
  flag : String
deriving DecidableEq

/-- The `LANGUAGES` entry for English. -/
def englishLang : Language := ⟨"en", "English", "", ""⟩

/-- The `LANGUAGES` entry for Turkish. -/
def turkishLang : Language := ⟨"tr", "Turkish", "", ""⟩

/-- Modelled from the spec: the supported-language constant `LANGUAGES`
(`constants/languages.ts` is not among the provided sources).  The spec's supported
ISO-639-1 code set is the target of the detector's code mapping — en, tr, es, fr, de,
ru, ar, zh, ja, ko, it, pt — with English present and used as the fold-to default.
Only the codes and English's presence matter to the embedded operations; native
names and flags are unspecified and left empty. -/
def LANGUAGES : List Language :=
  [englishLang, turkishLang, ⟨"es", "Spanish", "", ""⟩,
   ⟨"fr", "French", "", ""⟩, ⟨"de", "German", "", ""⟩, ⟨"ru", "Russian", "", ""⟩,
   ⟨"ar", "Arabic", "", ""⟩, ⟨"zh", "Chinese", "", ""⟩, ⟨"ja", "Japanese", "", ""⟩,
   ⟨"ko", "Korean", "", ""⟩, ⟨"it", "Italian", "", ""⟩, ⟨"pt", "Portuguese", "", ""⟩]

/-- `languageCodeMapping`: franc's ISO-639-3 codes to the app's ISO-639-1 codes. -/
def languageCodeMapping : List (String × String) :=
  [("eng", "en"), ("tur", "tr"), ("spa", "es"), ("fra", "fr"), ("deu", "de"),
   ("rus", "ru"), ("ara", "ar"), ("zho", "zh"), ("jpn", "ja"), ("kor", "ko"),
   ("ita", "it"), ("por", "pt")]

/-- `DetectionResult` of `services/languageDetectionService.ts`; an alternative is a
`(language, confidence)` pair. -/
structure DetectionResult where
  detectedLanguage : Language
  confidence : ℚ
  alternativeLanguages : List (Language × ℚ)
deriving DecidableEq

/-- One ranked entry returned by the external `langdetect` library. -/
structure LangdetectEntry where
  lang : String
  prob : ℚ
deriving DecidableEq

/-- `LanguageDetectionService.createDefaultResult`: English (falling back to
`LANGUAGES[0]` if English were missing) with confidence `0.3` and no alternatives. -/
def createDefaultResult : DetectionResult :=
  { detectedLanguage := (LANGUAGES.find? (fun l => l.code == "en")).getD
      (LANGUAGES.headD ⟨"", "", "", ""⟩),
    confidence := 0.3,
    alternativeLanguages := [] }

/-- `LanguageDetectionService.getLangdetectCode`: strip a regional suffix, lowercase,
and fold unsupported codes to `"en"`. -/
def getLangdetectCode (langdetectCode : String) : String :=
  let baseLang := jsToLower ((langdetectCode.splitOn "-").headD "")
  if LANGUAGES.any (fun l => l.code == baseLang) then baseLang else "en"

/-- The `for` loop of `getAlternativeLanguages`: skip the primary language, push a
supported language with confidence `min 0.9 prob`, and break once three alternatives
are collected (the break test runs after each non-skipped iteration). -/
def altLoop (primaryCode : String) :
    List LangdetectEntry → List (Language × ℚ) → List (Language × ℚ)
  | [], acc => acc
  | r :: rest, acc =>
    let code := getLangdetectCode r.lang
    if code == primaryCode then altLoop primaryCode rest acc
    else
      let acc1 :=
        match LANGUAGES.find? (fun l => l.code == code) with
        | some language => acc ++ [(language, min 0.9 r.prob)]
        | none => acc
      if 3 ≤ acc1.length then acc1 else altLoop primaryCode rest acc1

/-- `LanguageDetectionService.getAlternativeLanguages`: empty unless `langdetect`
returned at least two entries; otherwise scan the first four entries with `altLoop`. -/
def getAlternativeLanguages (langdetectResults : Option (List LangdetectEntry))
    (primaryCode : String) : List (Language × ℚ) :=
  match langdetectResults with
  | none => []
  | some rs => if rs.length ≤ 1 then [] else altLoop primaryCode (rs.take 4) []

/-- `LanguageDetectionService.detectLanguage`.  The two detector libraries are
external and enter as parameters: `francResult` is the ISO-639-3 code `franc`
returns, `langdetectResults` the ranked list `langdetect` returns (`none` models a
`null` return), and `detectorsThrow` models either library throwing — the
surrounding `catch` maps that to the default result.  The source's `options`
parameter computes a local `minConfidence` that the body never reads, so it is not
modelled.  The JS guard `!text` is the `text = ""` disjunct. -/
def detectLanguage (text : String) (francResult : String)
    (langdetectResults : Option (List LangdetectEntry)) (detectorsThrow : Bool) :
    DetectionResult :=
  if text = "" ∨ (jsTrim text).length < 10 then createDefaultResult
  else if detectorsThrow then createDefaultResult
  else
    let iso6391Code := (languageCodeMapping.lookup francResult).getD "en"
    let detectedLanguage := (LANGUAGES.find? (fun l => l.code == iso6391Code)).getD
      ((LANGUAGES.find? (fun l => l.code == "en")).getD (LANGUAGES.headD ⟨"", "", "", ""⟩))
    let confidence : ℚ :=
      match langdetectResults with
      | some (r0 :: _) =>
        if getLangdetectCode r0.lang == iso6391Code then min 0.95 (0.7 + r0.prob)
        else 0.5
      | _ => 0.6
    { detectedLanguage := detectedLanguage,
      confidence := confidence,
      alternativeLanguages := getAlternativeLanguages langdetectResults detectedLanguage.code }

/-- `LanguageDetectionService.manualLanguageOverride`: a known code is authoritative
with confidence `0.98` and no alternatives; an unknown code yields the default result. -/
def manualLanguageOverride (text : String) (manualLanguageCode : String) :
    DetectionResult :=
  match LANGUAGES.find? (fun l => l.code == manualLanguageCode) with
  | none => createDefaultResult
  | some language =>
    { detectedLanguage := language, confidence := 0.98, alternativeLanguages := [] }

/-! ## Translation orchestrator (`services/translationService.ts`) -/

/-- `ModelStatus` of `services/translationService.ts`. -/
structure ModelStatus where
  isDownloaded : Bool
  isDownloading : Bool
  downloadProgress : Option ℚ := none
deriving DecidableEq

/-- `TranslationOptions`; absent JS fields are their falsy defaults. -/
structure TranslationOptions where
  useOfflineOnly : Bool := false
  preferredModel : Option String := none
  maxTimeout : Option Nat := none
deriving DecidableEq

/-- `AlternativeTranslation` of `services/mlService.ts`. -/
structure AlternativeTranslation where
  text : String
  confidence : Option ℚ := none
deriving DecidableEq

/-- `TranslationResult` of `services/mlService.ts` (optional fields kept optional). -/
structure TranslationResult where
  translatedText : String
  confidence : Option ℚ := none
  alternatives : Option (List AlternativeTranslation) := none
  timeTaken : Option Nat := none
  modelId : String
deriving DecidableEq

/-- The mutable fields of the `TranslationService` singleton that `translate` reads:
the model-status map and the `fallbackToMock` flag (initialized `true` and never
reassigned in the source). -/
structure TSState where
  modelStatus : List (String × ModelStatus)
  fallbackToMock : Bool
deriving DecidableEq

/-- Observable side effects of one `translate` call: whether a background
`downloadModel` was fired, and the `modelId` tag written into the fire-and-forget
history record. -/
structure TransEffects where
  downloadStarted : Bool
  historyTag : Option String
deriving DecidableEq

/-- The `mockTranslations` phrase table of `TranslationService.mockTranslate`. -/
def mockTranslations (phrase targetCode : String) : Option String :=
  if phrase == "hello" then
    if targetCode == "tr" then some "merhaba"
    else if targetCode == "es" then some "hola"
    else if targetCode == "fr" then some "bonjour"
    else none
  else if phrase == "thank you" then
    if targetCode == "tr" then some "teşekkür ederim"
    else if targetCode == "es" then some "gracias"
    else if targetCode == "fr" then some "merci"
    else none
  else if phrase == "goodbye" then
    if targetCode == "tr" then some "hoşça kal"
    else if targetCode == "es" then some "adiós"
    else if targetCode == "fr" then some "au revoir"
    else none
  else none

/-- `TranslationService.mockTranslate`: look up the lower-cased, trimmed input
in the phrase table for the target code; otherwise bracket the target language
name; always `modelId = "mock"`, confidence `0.1`, `timeTaken = 10`. -/
def mockTranslate (text : String) (sourceLanguage targetLanguage : Language) :
    TranslationResult :=
  let lowerText := jsTrim (jsToLower text)
  let translatedText :=
    match mockTranslations lowerText targetLanguage.code with
    | some t => t
    | none => "[" ++ targetLanguage.name ++ "] " ++ text
  { translatedText := translatedText, modelId := "mock", confidence := some 0.1,
    timeTaken := some 10, alternatives := some [] }

/-- `TranslationService.getModelIdForLanguagePair`: exact catalog match only. -/
def getModelIdForLanguagePair (sourceCode targetCode : String) : Option String :=
  (MODEL_CONFIGS.find? (fun c => c.srcLang == sourceCode && c.targetLang == targetCode)).map
    (fun c => c.id)

/-- Step 1 of `translate`: an explicit source language is used as-is, `null`
uses the detector's result. -/
def resolveSource (sourceLanguageInput : Option Language)
    (detection : DetectionResult) : Language :=
  match sourceLanguageInput with
  | none => detection.detectedLanguage
  | some l => l

/-- `TranslationService.translate`.  External suspension points enter as parameters:
`detection` is the result `detectLanguage` resolves with (that method never rejects —
it catches internally), and `mlOutcome` is the settled promise of
`mlService.translateText` (`Except.error` = any rejection from model load, tokenize,
inference or detokenize).  The value is `Except.ok (result, effects)`; `Except.error`
models `translate` itself rejecting (the `throw error` in its `catch`, reachable only
when `fallbackToMock` is false).  History-append failures are swallowed by the source
(`.catch`) and only the recorded tag is observed; the background `downloadModel` call
is fire-and-forget, so its outcome does not affect the result. -/
def translate (svc : TSState) (text : String) (sourceLanguageInput : Option Language)
    (targetLanguage : Language) (options : TranslationOptions)
    (detection : DetectionResult) (mlOutcome : Except Unit TranslationResult) :
    Except Unit (TranslationResult × TransEffects) :=
  let sourceLanguage := resolveSource sourceLanguageInput detection
  match getModelIdForLanguagePair sourceLanguage.code targetLanguage.code with
  | none =>
    let mockResult := mockTranslate text sourceLanguage targetLanguage
    .ok (mockResult, ⟨false, some "mock_no_model_config"⟩)
  | some modelId =>
    let modelStatus := mapLookup svc.modelStatus modelId
    if !((modelStatus.map (fun st => st.isDownloaded)).getD false) then
      let startDownload :=
        !((modelStatus.map (fun st => st.isDownloading)).getD false)
          && !options.useOfflineOnly
      let mockResult := mockTranslate text sourceLanguage targetLanguage
      .ok (mockResult, ⟨startDownload, some "mock_model_unavailable"⟩)
    else
      match mlOutcome with
      | .ok mlResult => .ok (mlResult, ⟨false, some mlResult.modelId⟩)
      | .error e =>
        if svc.fallbackToMock then
          let mockResult := mockTranslate text sourceLanguage targetLanguage
          .ok (mockResult, ⟨false, some mockResult.modelId⟩)
        else .error e

/-! ## Confidence estimator (`services/mlService.ts`)

The estimator runs on IEEE-754 doubles.  It is embedded over `ℚ` with the
transcendental primitives `Math.exp`, `Math.log` and `Math.pow` as function
parameters (`expF`, `logF`, `powF`); theorems assume only identities that hold
exactly in IEEE-754 (`exp(0) = 1`, `log(1) = 0`).  The result type is
`Option ℚ`, `none` standing for `NaN`: the only NaN source in this code is the
division `entropy / maxEntropy`, and once produced the NaN propagates to the
returned value because `1 - NaN`, weighted sums, `Math.min` and `Math.max` all
return `NaN` on a `NaN` operand. -/

/-- `Math.max(...xs)` for a nonempty list (the empty case, `-Infinity` in JS, is
unreachable: every call site is guarded by a nonempty-ness check). -/
def jsMaxQ : List ℚ → ℚ
  | [] => 0
  | x :: xs => xs.foldl max x

/-- `MlService.softmax`: subtract the maximum logit, exponentiate, normalize.
With the true `exp` the denominator is a sum of positive terms, hence nonzero. -/
def softmax (expF : ℚ → ℚ) (logits : List ℚ) : List ℚ :=
  let maxLogit := jsMaxQ logits
  let expLogits := logits.map (fun x => expF (x - maxLogit))
  let sumExp := expLogits.foldl (fun sum e => sum + e) 0
  expLogits.map (fun e => e / sumExp)

/-- JS division where `0 / 0` yields `NaN`.  The dividend at the only call site is
the entropy sum, which vanishes whenever `maxEntropy` does (`log 1 = 0` forces a
singleton distribution with probability 1), so the `x / 0 = ±Infinity` cases of JS
division are unreachable there. -/
def jsDiv00 (a b : ℚ) : Option ℚ :=
  if b = 0 then none else some (a / b)

/-- `MlService.calculateTranslationConfidence`: geometric mean (weight 0.4),
entropy-based confidence (weight 0.3) and maximum probability (weight 0.3) over the
softmax of the predictions, clamped to `[0, 1]` — except that a `NaN` arising from
`normalizedEntropy = entropy / Math.log(n)` at `n = 1` passes through the clamp
unchanged. -/
def calculateTranslationConfidence (expF logF : ℚ → ℚ) (powF : ℚ → ℚ → ℚ)
    (predictions : List ℚ) : Option ℚ :=
  if predictions.length = 0 then some 0
  else
    let probs := softmax expF predictions
    let geometricMean :=
      powF (probs.foldl (fun prod prob => prod * max prob 0.001) 1)
        (1 / (probs.length : ℚ))
    let entropy :=
      -(probs.foldl (fun sum prob => sum + (if 0 < prob then prob * logF prob else 0)) 0)
    let maxEntropy := logF ((probs.length : ℚ))
    match jsDiv00 entropy maxEntropy with
    | none => none
    | some normalizedEntropy =>
      let entropyConfidence := 1 - normalizedEntropy
      let maxProb := jsMaxQ probs
      let combinedConfidence :=
        0.4 * geometricMean + 0.3 * entropyConfidence + 0.3 * maxProb
      some (max 0 (min 1 combinedConfidence))

/-! ## Concrete states for witnesses and counterexamples -/

/-- `mmSample` pushed near the storage limit: usage reading 490MB of a 500MB budget. -/
def overQuotaState : MMState := { mmSample with usageReading := 490 * 1024 * 1024 }

/-- A `ModelInfo` for a downloaded `en2tr-small`. -/
def downloadedInfo : ModelInfo :=
  { id := "en2tr-small", name := "English to Turkish (Small)",
    url := "https://tfhub.dev/tensorflow/tfjs-model/opus-mt-en-tr/1/model.json",
    version := "1.0.0",
    localPath := some "/data/ml-models/en2tr-small/model.json",
    isDownloaded := true, downloadProgress := some 1, priority := some 83,
    downloadSize := some (25 * 1024 * 1024), usageCount := some 3 }

/-- `mmSample` with `en2tr-small` downloaded. -/
def downloadedState : MMState :=
  { mmSample with models := [("en2tr-small", downloadedInfo)] }

/-- A fresh `TranslationService` state: catalog models registered, none downloaded. -/
def tsSample : TSState :=
  { modelStatus := [("en2tr-small", ⟨false, false, none⟩),
                    ("tr2en-small", ⟨false, false, none⟩),
                    ("opus-mt-en2tr-base", ⟨false, false, none⟩)],
    fallbackToMock := true }

/-- A `TranslationService` state in which `en2tr-small` is downloaded. -/
def tsDownloadedSample : TSState :=
  { modelStatus := [("en2tr-small", ⟨true, false, some 1⟩)], fallbackToMock := true }

/-- A detection oracle: English, confidence 0.9. -/
def sampleDetection : DetectionResult :=
  { detectedLanguage := englishLang, confidence := 0.9, alternativeLanguages := [] }

/-- An arbitrary successful ML result (unused in the branches the claims exercise). -/
def dummyMlResult : TranslationResult :=
  { translatedText := "x", modelId := "en2tr-small", confidence := some 0.9,
    timeTaken := some 100, alternatives := some [] }

/-! ## Queue-ordering lemmas -/

theorem mem_insertQueueItem {x z : DownloadQueueItem} :
    ∀ {l : List DownloadQueueItem}, z ∈ insertQueueItem x l ↔ z = x ∨ z ∈ l := by
  intro l
  induction l with
  | nil => simp [insertQueueItem]
  | cons y ys ih =>
    by_cases h : y.priority < x.priority
    · simp [insertQueueItem, h]
    · simp only [insertQueueItem, if_neg h, List.mem_cons, ih]
      tauto

theorem insertQueueItem_pairwise {x : DownloadQueueItem} :
    ∀ {l : List DownloadQueueItem}, l.Pairwise queueRel →
      (∀ y ∈ l, y.addedAt < x.addedAt) → (insertQueueItem x l).Pairwise queueRel := by
  intro l
  induction l with
  | nil => intro _ _; simp [insertQueueItem, queueRel]
  | cons y ys ih =>
    intro hp hlt
    rw [List.pairwise_cons] at hp
    by_cases h : y.priority < x.priority
    · rw [insertQueueItem, if_pos h, List.pairwise_cons]
      refine ⟨?_, List.pairwise_cons.mpr hp⟩
      intro z hz
      rcases List.mem_cons.mp hz with rfl | hz
      · exact ⟨le_of_lt h, fun he => absurd he.symm (ne_of_lt h)⟩
      · have hyz := hp.1 z hz
        exact ⟨le_trans hyz.1 (le_of_lt h),
          fun he => absurd (he ▸ hyz.1 : x.priority ≤ y.priority) (not_le.mpr h)⟩
    · rw [insertQueueItem, if_neg h, List.pairwise_cons]
      refine ⟨?_, ih hp.2 (fun z hz => hlt z (List.mem_cons_of_mem y hz))⟩
      intro z hz
      rcases mem_insertQueueItem.mp hz with rfl | hz
      · exact ⟨not_lt.mp h, fun _ => hlt y (List.mem_cons_self y ys)⟩
      · exact hp.1 z hz

theorem insertQueueItem_of_none_lt {x : DownloadQueueItem} :
    ∀ {l : List DownloadQueueItem}, (∀ y ∈ l, ¬ y.priority < x.priority) →
      insertQueueItem x l = l ++ [x] := by
  intro l
  induction l with
  | nil => intro _; rfl
  | cons y ys ih =>
    intro hd
    rw [insertQueueItem, if_neg (hd y (List.mem_cons_self y ys))]
    rw [ih (fun z hz => hd z (List.mem_cons_of_mem y hz))]
    rfl

theorem foldl_insertQueueItem_dominated :
    ∀ (l acc : List DownloadQueueItem),
      l.Pairwise (fun a b => b.priority ≤ a.priority) →
      (∀ a ∈ acc, ∀ z ∈ l, z.priority ≤ a.priority) →
      List.foldl (fun acc x => insertQueueItem x acc) acc l = acc ++ l := by
  intro l
  induction l with
  | nil => intro acc _ _; simp
  | cons x xs ih =>
    intro acc hp hd
    rw [List.pairwise_cons] at hp
    have hins : insertQueueItem x acc = acc ++ [x] :=
      insertQueueItem_of_none_lt
        (fun y hy => not_lt.mpr (hd y hy x (List.mem_cons_self x xs)))
    calc List.foldl (fun acc x => insertQueueItem x acc) acc (x :: xs)
        = List.foldl (fun acc x => insertQueueItem x acc) (acc ++ [x]) xs := by
          rw [List.foldl_cons, hins]
      _ = (acc ++ [x]) ++ xs := by
          refine ih (acc ++ [x]) hp.2 ?_
          intro a ha z hz
          rcases List.mem_append.mp ha with ha | ha
          · exact hd a ha z (List.mem_cons_of_mem x hz)
          · rw [List.mem_singleton.mp ha]
            exact hp.1 z hz
      _ = acc ++ (x :: xs) := by simp

theorem sortByPriorityDesc_of_sorted {l : List DownloadQueueItem}
    (h : l.Pairwise (fun a b => b.priority ≤ a.priority)) :
    sortByPriorityDesc l = l := by
  have := foldl_insertQueueItem_dominated l [] h (by simp)
  simpa [sortByPriorityDesc] using this

theorem sortByPriorityDesc_append_singleton (l : List DownloadQueueItem)
    (x : DownloadQueueItem) :
    sortByPriorityDesc (l ++ [x]) = insertQueueItem x (sortByPriorityDesc l) := by
  simp [sortByPriorityDesc, List.foldl_append]

/-! ## Admission-loop lemmas -/

/-- Characterization of the admission loop: it pops some prefix of length `n` of the
queue, starts exactly the popped entries that fit into the storage budget (in queue
order), drops the popped entries that would exceed it, and halts only because the
queue ran out or the concurrency capacity filled up — never because of a storage
skip. -/
theorem processQueueLoop_spec (u mS mC : Nat) :
    ∀ (queue : List DownloadQueueItem) (active started : List String),
      ∃ n, n ≤ queue.length ∧
        processQueueLoop u mS mC queue active started =
          (queue.drop n,
           (((queue.take n).filter fun it => !(decide (mS < u + it.estimatedSize))).map
              (fun it => it.modelId)).foldl jsSetAdd active,
           started ++ ((queue.take n).filter
              fun it => !(decide (mS < u + it.estimatedSize))).map (fun it => it.modelId)) ∧
        (queue.drop n = [] ∨
          mC ≤ ((((queue.take n).filter
              fun it => !(decide (mS < u + it.estimatedSize))).map
              (fun it => it.modelId)).foldl jsSetAdd active).length) := by
  intro queue
  induction queue with
  | nil =>
    intro active started
    exact ⟨0, Nat.le_refl 0, by simp [processQueueLoop], Or.inl rfl⟩
  | cons item rest ih =>
    intro active started
    by_cases hcap : active.length < mC
    · by_cases hstore : mS < u + item.estimatedSize
      · obtain ⟨n, hn, heq, hstop⟩ := ih active started
        refine ⟨n + 1, Nat.succ_le_succ hn, ?_, ?_⟩
        · rw [processQueueLoop, if_pos hcap, if_pos hstore, heq]
          simp [List.filter_cons, hstore]
        · rw [List.drop_succ_cons]
          simpa [List.filter_cons, hstore] using hstop
      · obtain ⟨n, hn, heq, hstop⟩ :=
          ih (jsSetAdd active item.modelId) (started ++ [item.modelId])
        refine ⟨n + 1, Nat.succ_le_succ hn, ?_, ?_⟩
        · rw [processQueueLoop, if_pos hcap, if_neg hstore, heq]
          simp [List.filter_cons, hstore]
        · rw [List.drop_succ_cons]
          simpa [List.filter_cons, hstore] using hstop
    · exact ⟨0, Nat.zero_le _,
        by rw [processQueueLoop, if_neg hcap]; simp,
        Or.inr (by simpa using Nat.not_lt.mp hcap)⟩

theorem jsSetAdd_length_le (s : List String) (x : String) :
    (jsSetAdd s x).length ≤ s.length + 1 := by
  unfold jsSetAdd
  split
  · exact Nat.le_succ _
  · simp

/-- Through the admission loop the active set never grows past
`max active.length maxConcurrent`. -/
theorem processQueueLoop_active_le (u mS mC : Nat) :
    ∀ (queue : List DownloadQueueItem) (active started : List String),
      ((processQueueLoop u mS mC queue active started).2.1).length ≤
        max active.length mC := by
  intro queue
  induction queue with
  | nil => intro active started; simp [processQueueLoop]
  | cons item rest ih =>
    intro active started
    by_cases hcap : active.length < mC
    · by_cases hstore : mS < u + item.estimatedSize
      · rw [processQueueLoop, if_pos hcap, if_pos hstore]
        exact ih active started
      · rw [processQueueLoop, if_pos hcap, if_neg hstore]
        refine le_trans (ih _ _) (max_le ?_ (le_max_right _ _))
        have h1 : (jsSetAdd active item.modelId).length ≤ active.length + 1 :=
          jsSetAdd_length_le _ _
        have h2 : active.length + 1 ≤ mC := hcap
        exact le_trans (le_trans h1 h2) (le_max_right _ _)
    · rw [processQueueLoop, if_neg hcap]
      simp

/-! ## Scheduler invariants -/

theorem queueInv_processDownloadQueue {s : MMState} (h : queueInv s) :
    queueInv (processDownloadQueue s) := by
  obtain ⟨n, -, heq, -⟩ := processQueueLoop_spec s.usageReading s.maxStorageUsage
    s.maxConcurrentDownloads s.downloadQueue s.activeDownloads s.startedDownloads
  constructor
  · show (processDownloadQueue s).downloadQueue.Pairwise queueRel
    simp only [processDownloadQueue, heq]
    exact h.1.sublist (List.drop_sublist _ _)
  · intro it hit
    simp only [processDownloadQueue, heq] at hit ⊢
    exact h.2 it (List.mem_of_mem_drop hit)

theorem queueInv_addToDownloadQueue {s : MMState} (h : queueInv s)
    (modelId : String) (priority : ℤ) (estimatedSize : Nat) :
    queueInv (addToDownloadQueue s modelId priority estimatedSize) := by
  unfold addToDownloadQueue
  split
  · exact h
  · apply queueInv_processDownloadQueue
    have hsorted : sortByPriorityDesc
        (s.downloadQueue ++ [DownloadQueueItem.mk modelId priority estimatedSize s.clock]) =
        insertQueueItem (DownloadQueueItem.mk modelId priority estimatedSize s.clock)
          s.downloadQueue := by
      rw [sortByPriorityDesc_append_singleton,
        sortByPriorityDesc_of_sorted (h.1.imp fun hab => hab.1)]
    constructor
    · show (sortByPriorityDesc _).Pairwise queueRel
      rw [hsorted]
      exact insertQueueItem_pairwise h.1 (fun y hy => h.2 y hy)
    · intro it hit
      rw [hsorted] at hit
      rcases mem_insertQueueItem.mp hit with rfl | hmem
      · exact Nat.lt_succ_self _
      · exact Nat.lt_succ_of_lt (h.2 _ hmem)

theorem queueInv_applyEvent {s : MMState} (h : queueInv s) (e : MMEvent) :
    queueInv (applyEvent s e) := by
  cases e with
  | enqueue modelId priority estimatedSize =>
    exact queueInv_addToDownloadQueue h modelId priority estimatedSize
  | complete modelId =>
    exact queueInv_processDownloadQueue ⟨h.1, h.2⟩
  | pause => exact ⟨List.Pairwise.nil, fun it hit => absurd hit (List.not_mem_nil it)⟩

theorem queueInv_runEvents {s : MMState} (h : queueInv s) (events : List MMEvent) :
    queueInv (runEvents s events) := by
  induction events generalizing s with
  | nil => exact h
  | cons e evs ih => exact ih (queueInv_applyEvent h e)

theorem processDownloadQueue_maxConcurrent (s : MMState) :
    (processDownloadQueue s).maxConcurrentDownloads = s.maxConcurrentDownloads := rfl

theorem addToDownloadQueue_maxConcurrent (s : MMState) (modelId : String)
    (priority : ℤ) (estimatedSize : Nat) :
    (addToDownloadQueue s modelId priority estimatedSize).maxConcurrentDownloads =
      s.maxConcurrentDownloads := by
  unfold addToDownloadQueue
  split <;> rfl

theorem applyEvent_maxConcurrent (s : MMState) (e : MMEvent) :
    (applyEvent s e).maxConcurrentDownloads = s.maxConcurrentDownloads := by
  cases e with
  | enqueue modelId priority estimatedSize =>
    exact addToDownloadQueue_maxConcurrent s modelId priority estimatedSize
  | complete modelId => rfl
  | pause => rfl

theorem runEvents_maxConcurrent (s : MMState) (events : List MMEvent) :
    (runEvents s events).maxConcurrentDownloads = s.maxConcurrentDownloads := by
  induction events generalizing s with
  | nil => rfl
  | cons e evs ih => rw [runEvents, List.foldl_cons, ← runEvents, ih, applyEvent_maxConcurrent]

theorem processDownloadQueue_active_le {s : MMState}
    (h : s.activeDownloads.length ≤ s.maxConcurrentDownloads) :
    (processDownloadQueue s).activeDownloads.length ≤ s.maxConcurrentDownloads := by
  have hle := processQueueLoop_active_le s.usageReading s.maxStorageUsage
    s.maxConcurrentDownloads s.downloadQueue s.activeDownloads s.startedDownloads
  exact le_trans hle (max_le h le_rfl)

theorem applyEvent_active_le {s : MMState} (e : MMEvent)
    (h : s.activeDownloads.length ≤ s.maxConcurrentDownloads) :
    (applyEvent s e).activeDownloads.length ≤ (applyEvent s e).maxConcurrentDownloads := by
  cases e with
  | enqueue modelId priority estimatedSize =>
    rw [applyEvent, addToDownloadQueue_maxConcurrent]
    unfold addToDownloadQueue
    split
    · exact h
    · exact processDownloadQueue_active_le h
  | complete modelId =>
    rw [applyEvent, processDownloadQueue_maxConcurrent]
    refine processDownloadQueue_active_le (le_trans ?_ h)
    exact (List.erase_sublist _ _).length_le
  | pause => exact h

theorem runEvents_active_le {s : MMState}
    (h : s.activeDownloads.length ≤ s.maxConcurrentDownloads) (events : List MMEvent) :
    (runEvents s events).activeDownloads.length ≤ s.maxConcurrentDownloads := by
  induction events generalizing s with
  | nil => exact h
  | cons e evs ih =>
    rw [runEvents, List.foldl_cons, ← runEvents]
    have hstep := applyEvent_active_le e h
    have hrun := ih hstep
    rwa [applyEvent_maxConcurrent] at hrun

/-! ## Claims C4, C5, C6 -/

/-- Claim C4: queue admission never starts a download that would breach the storage
budget.  `processDownloadQueue` pops a prefix of length `n` of the queue; every popped
entry for which `wouldExceedStorageLimit` holds is dropped — neither started nor
re-queued — while every other popped entry is started (appended to the started log and
added to the active set); and the loop only stops early because the capacity filled
up, never because of a storage skip. -/
theorem claim_C4_admission_storage_guard (s : MMState) :
    ∃ n, n ≤ s.downloadQueue.length ∧
      processDownloadQueue s =
        { s with
            downloadQueue := s.downloadQueue.drop n,
            activeDownloads :=
              (((s.downloadQueue.take n).filter
                fun it => !(wouldExceedStorageLimit s it.estimatedSize)).map
                (fun it => it.modelId)).foldl jsSetAdd s.activeDownloads,
            startedDownloads :=
              s.startedDownloads ++
                ((s.downloadQueue.take n).filter
                  fun it => !(wouldExceedStorageLimit s it.estimatedSize)).map
                  (fun it => it.modelId) } ∧
      (s.downloadQueue.drop n = [] ∨
        s.maxConcurrentDownloads ≤
          ((((s.downloadQueue.take n).filter
            fun it => !(wouldExceedStorageLimit s it.estimatedSize)).map
            (fun it => it.modelId)).foldl jsSetAdd s.activeDownloads).length) := by
  obtain ⟨n, hn, heq, hstop⟩ := processQueueLoop_spec s.usageReading s.maxStorageUsage
    s.maxConcurrentDownloads s.downloadQueue s.activeDownloads s.startedDownloads
  refine ⟨n, hn, ?_, ?_⟩
  · simp only [processDownloadQueue, heq, wouldExceedStorageLimit]
  · simpa only [wouldExceedStorageLimit] using hstop

/-- Claim C5: at every state reachable by scheduler events from a state satisfying
the concurrency bound (in particular the initial state, whose active set is empty),
the active-download set has at most `maxConcurrentDownloads` elements; admission is
re-run after every enqueue and after every completion, and only ever starts a
download while `|active| < maxConcurrentDownloads`. -/
theorem claim_C5_active_bounded (s : MMState) (events : List MMEvent)
    (h : s.activeDownloads.length ≤ s.maxConcurrentDownloads) :
    (runEvents s events).activeDownloads.length ≤ s.maxConcurrentDownloads :=
  runEvents_active_le h events

/-- Claim C6: starting from an empty queue, after any sequence of scheduler events
the download queue is sorted by priority in non-increasing order, and entries of
equal priority are ordered by their enqueue time (FIFO). -/
theorem claim_C6_queue_sorted_fifo (s : MMState) (hq : s.downloadQueue = [])
    (events : List MMEvent) :
    ((runEvents s events).downloadQueue.Pairwise
      fun a b => b.priority ≤ a.priority) ∧
    ((runEvents s events).downloadQueue.Pairwise
      fun a b => a.priority = b.priority → a.addedAt < b.addedAt) := by
  have hinv : queueInv s := by
    constructor
    · rw [hq]; exact List.Pairwise.nil
    · rw [hq]; exact fun it hit => absurd hit (List.not_mem_nil it)
  have h := queueInv_runEvents hinv events
  exact ⟨h.1.imp fun hab => hab.1, h.1.imp fun hab => hab.2⟩

theorem claim_C5_witness :
    (runEvents mmSample sampleEvents).activeDownloads.length ≤
      mmSample.maxConcurrentDownloads :=
  claim_C5_active_bounded mmSample sampleEvents (by decide)

theorem claim_C6_witness :
    ((runEvents mmSample sampleEvents).downloadQueue.Pairwise
      fun a b => b.priority ≤ a.priority) ∧
    ((runEvents mmSample sampleEvents).downloadQueue.Pairwise
      fun a b => a.priority = b.priority → a.addedAt < b.addedAt) :=
  claim_C6_queue_sorted_fifo mmSample rfl sampleEvents

/-! ## Claims C2 and C10 (urgent requests and deletion) -/

theorem mapLookup_mapSet_self {α : Type} (m : List (String × α)) (k : String) (v : α) :
    mapLookup (mapSet m k v) k = some v := by
  induction m with
  | nil => simp [mapSet, mapLookup]
  | cons p rest ih =>
    obtain ⟨q, w⟩ := p
    by_cases h : q = k
    · simp [mapSet, h, mapLookup]
    · simp [mapSet, h, mapLookup, ih]

/-- `downloadModel` performs no storage check: on a configured, non-downloaded model
it either succeeds (returning the model marked downloaded) or rethrows the transfer
error, and never produces `StorageExceeded`. -/
theorem downloadModel_no_storage_check (s : MMState) (modelId : String)
    (transferOk : Bool) (info : ModelInfo)
    (hlook : mapLookup s.models modelId = some info)
    (hnd : info.isDownloaded = false) :
    (downloadModel s modelId transferOk).1 ≠ Except.error MMError.storageExceeded ∧
    (transferOk = true →
      (downloadModel s modelId transferOk).1.map (fun m => m.isDownloaded) =
        Except.ok true) := by
  simp only [downloadModel, hlook, hnd, Bool.false_eq_true, if_false]
  cases transferOk with
  | false => exact ⟨by simp, by simp⟩
  | true => exact ⟨by simp, fun _ => by simp [Except.map]⟩

/-- Claim C2 counterexample: with 490MB used of a 500MB budget, an urgent request for
the 25MB `en2tr-small` would exceed the quota, yet it does not fail with
`StorageExceeded` — the download runs and the model comes back downloaded. -/
theorem claim_C2_counterexample :
    (requestModel overQuotaState "en2tr-small" true true).1 ≠
      Except.error MMError.storageExceeded ∧
    (requestModel overQuotaState "en2tr-small" true true).1.map
      (fun m => m.isDownloaded) = Except.ok true ∧
    overQuotaState.maxStorageUsage <
      overQuotaState.usageReading +
        ((mapLookup overQuotaState.models "en2tr-small").map
          (fun m => m.downloadSize.getD 0)).getD 0 := by
  refine ⟨?_, ?_, ?_⟩ <;> decide

/-- Claim C2 amended: the storage-quota check does **not** apply to urgent requests.
`requestModel(_, urgent := true)` on a configured, non-downloaded model goes straight
to `downloadModel`, which performs no storage check: even when the estimated size
would exceed the quota the request never fails with `StorageExceeded`, and with a
successful transfer it returns the downloaded model. -/
theorem claim_C2_amended (s : MMState) (modelId : String) (transferOk : Bool)
    (info : ModelInfo) (hlook : mapLookup s.models modelId = some info)
    (hnd : info.isDownloaded = false)
    (hover : s.maxStorageUsage < s.usageReading + info.downloadSize.getD 0) :
    (requestModel s modelId true transferOk).1 ≠ Except.error MMError.storageExceeded ∧
    (transferOk = true →
      (requestModel s modelId true transferOk).1.map (fun m => m.isDownloaded) =
        Except.ok true) := by
  have hbump : (bumpUsage info s.clock).isDownloaded = false := hnd
  have hurgent : requestModel s modelId true transferOk =
      downloadModel
        { s with models := mapSet s.models modelId (bumpUsage info s.clock) }
        modelId transferOk := by
    simp [requestModel, hlook, hnd]
  rw [hurgent]
  exact downloadModel_no_storage_check _ modelId transferOk _
    (mapLookup_mapSet_self s.models modelId _) hbump

theorem claim_C2_witness :
    (requestModel overQuotaState "en2tr-small" true true).1 ≠
      Except.error MMError.storageExceeded ∧
    (requestModel overQuotaState "en2tr-small" true true).1.map
      (fun m => m.isDownloaded) = Except.ok true :=
  ⟨(claim_C2_amended overQuotaState "en2tr-small" true (initialModelInfo en2trSmall 83)
      rfl rfl (by decide)).1,
   (claim_C2_amended overQuotaState "en2tr-small" true (initialModelInfo en2trSmall 83)
      rfl rfl (by decide)).2 rfl⟩

/-- Claim C10: `deleteModel` is atomic with respect to the model map.  On an unknown
id, a non-downloaded model, or a falsy local path it returns without modifying any
state; when the filesystem removal throws, it rethrows and the state — in particular
`isDownloaded` and `localPath` — is unchanged. -/
theorem claim_C10_deleteModel (s : MMState) (modelId : String) (unlinkOk : Bool) :
    (mapLookup s.models modelId = none →
      deleteModel s modelId unlinkOk = (s, Except.ok ())) ∧
    (∀ info, mapLookup s.models modelId = some info →
      (info.isDownloaded = false ∨ info.localPath.getD "" = "") →
      deleteModel s modelId unlinkOk = (s, Except.ok ())) ∧
    (∀ info, mapLookup s.models modelId = some info →
      info.isDownloaded = true → info.localPath.getD "" ≠ "" →
      deleteModel s modelId false = (s, Except.error MMError.deleteFailed)) := by
  refine ⟨?_, ?_, ?_⟩
  · intro h
    rw [deleteModel, h]
  · intro info h hfalsy
    rw [deleteModel, h]
    rcases hfalsy with hnd | hpath
    · simp [hnd]
    · simp [hpath]
  · intro info h hdl hpath
    rw [deleteModel, h]
    simp [hdl, hpath]

theorem claim_C10_witness :
    deleteModel downloadedState "en2tr-small" false =
      (downloadedState, Except.error MMError.deleteFailed) ∧
    deleteModel mmSample "en2tr-small" true = (mmSample, Except.ok ()) :=
  ⟨(claim_C10_deleteModel downloadedState "en2tr-small" false).2.2 downloadedInfo
      rfl rfl (by decide),
   (claim_C10_deleteModel mmSample "en2tr-small" true).2.1
      (initialModelInfo en2trSmall 83) rfl (Or.inl rfl)⟩

/-! ## Claims C1 and C8 (the orchestrator) -/

/-- Claim C1 counterexample: `translate("hello", null, "tr")` with the catalog entry
present and the model not downloaded returns `translatedText = "merhaba"` and
confidence `0.1`, starts a background download, and tags the history record
`"mock_model_unavailable"` — but the returned result's `modelId` is `"mock"`, not
`"mock_model_unavailable"`. -/
theorem claim_C1_counterexample :
    translate tsSample "hello" none turkishLang {} sampleDetection
        (Except.ok dummyMlResult) =
      Except.ok (TranslationResult.mk "merhaba" (some 0.1) (some []) (some 10) "mock",
        TransEffects.mk true (some "mock_model_unavailable")) ∧
    "mock" ≠ "mock_model_unavailable" := by
  exact ⟨rfl, by decide⟩

/-- Claim C1 amended: whenever the catalog has a model for the pair but that model is
not downloaded, `translate` returns the mock result — whose `modelId` is `"mock"`
(the `"mock_model_unavailable"` tag goes only into the history record) and whose
confidence is `0.1` — and fires a background download exactly when the model is not
already downloading and `options.useOfflineOnly` is not set; in particular
`translate("hello", null, "tr")` yields `translatedText = "merhaba"`. -/
theorem claim_C1_amended (svc : TSState) (text : String)
    (sourceLanguageInput : Option Language) (targetLanguage : Language)
    (options : TranslationOptions) (detection : DetectionResult)
    (mlOutcome : Except Unit TranslationResult) (modelId : String)
    (hfind : getModelIdForLanguagePair (resolveSource sourceLanguageInput detection).code
      targetLanguage.code = some modelId)
    (hnd : ((mapLookup svc.modelStatus modelId).map (fun st => st.isDownloaded)).getD false
      = false) :
    translate svc text sourceLanguageInput targetLanguage options detection mlOutcome =
      Except.ok (mockTranslate text (resolveSource sourceLanguageInput detection)
          targetLanguage,
        TransEffects.mk
          (!(((mapLookup svc.modelStatus modelId).map (fun st => st.isDownloading)).getD
              false) && !options.useOfflineOnly)
          (some "mock_model_unavailable")) ∧
    (mockTranslate text (resolveSource sourceLanguageInput detection)
      targetLanguage).modelId = "mock" ∧
    (mockTranslate text (resolveSource sourceLanguageInput detection)
      targetLanguage).confidence = some 0.1 := by
  refine ⟨?_, rfl, rfl⟩
  simp only [translate, hfind, hnd, Bool.not_false, if_true]

theorem claim_C1_witness :
    translate tsSample "hello" none turkishLang {} sampleDetection
        (Except.ok dummyMlResult) =
      Except.ok (mockTranslate "hello" englishLang turkishLang,
        TransEffects.mk true (some "mock_model_unavailable")) ∧
    (mockTranslate "hello" englishLang turkishLang).translatedText = "merhaba" ∧
    (mockTranslate "hello" englishLang turkishLang).confidence = some 0.1 := by
  refine ⟨?_, by decide, rfl⟩
  exact (claim_C1_amended tsSample "hello" none turkishLang {} sampleDetection
    (Except.ok dummyMlResult) "en2tr-small" (by decide) (by decide)).1

/-- Claim C8: with the `fallbackToMock` flag as the source initializes it, a
`translate` call never rejects — every outcome is `Except.ok` — and whenever the
resident-model path is taken and the underlying translation step rejects (model
load, tokenize, inference, detokenize or any other error surfaced by
`mlService.translateText`), the call returns the mock fallback instead. -/
theorem claim_C8_translate_catches (svc : TSState) (text : String)
    (sourceLanguageInput : Option Language) (targetLanguage : Language)
    (options : TranslationOptions) (detection : DetectionResult)
    (mlOutcome : Except Unit TranslationResult)
    (hfb : svc.fallbackToMock = true) :
    (∃ r eff, translate svc text sourceLanguageInput targetLanguage options detection
      mlOutcome = Except.ok (r, eff)) ∧
    (∀ modelId, getModelIdForLanguagePair
        (resolveSource sourceLanguageInput detection).code targetLanguage.code =
          some modelId →
      ((mapLookup svc.modelStatus modelId).map (fun st => st.isDownloaded)).getD false
        = true →
      ∀ e, mlOutcome = Except.error e →
      translate svc text sourceLanguageInput targetLanguage options detection mlOutcome =
        Except.ok (mockTranslate text (resolveSource sourceLanguageInput detection)
          targetLanguage, TransEffects.mk false (some "mock"))) := by
  constructor
  · cases hfind : getModelIdForLanguagePair
        (resolveSource sourceLanguageInput detection).code targetLanguage.code with
    | none =>
      exact ⟨mockTranslate text (resolveSource sourceLanguageInput detection)
        targetLanguage, ⟨false, some "mock_no_model_config"⟩,
        by simp only [translate, hfind]⟩
    | some modelId =>
      cases hdl : ((mapLookup svc.modelStatus modelId).map
          (fun st => st.isDownloaded)).getD false with
      | false =>
        exact ⟨mockTranslate text (resolveSource sourceLanguageInput detection)
          targetLanguage,
          ⟨!(((mapLookup svc.modelStatus modelId).map
              (fun st => st.isDownloading)).getD false) && !options.useOfflineOnly,
            some "mock_model_unavailable"⟩,
          by simp only [translate, hfind, hdl, Bool.not_false, if_true]⟩
      | true =>
        cases mlOutcome with
        | ok r =>
          exact ⟨r, ⟨false, some r.modelId⟩, by simp [translate, hfind, hdl]⟩
        | error e =>
          exact ⟨mockTranslate text (resolveSource sourceLanguageInput detection)
            targetLanguage, ⟨false, some "mock"⟩,
            by simp [translate, hfind, hdl, hfb]; rfl⟩
  · intro modelId hfind hdl e hml
    rw [hml]
    simp only [translate, hfind, hdl, Bool.not_true, Bool.false_eq_true, if_false,
      hfb, if_true]
    rfl

theorem claim_C8_witness :
    (∃ r eff, translate tsDownloadedSample "hello" none turkishLang {} sampleDetection
      (Except.error ()) = Except.ok (r, eff)) ∧
    translate tsDownloadedSample "hello" none turkishLang {} sampleDetection
        (Except.error ()) =
      Except.ok (mockTranslate "hello" englishLang turkishLang,
        TransEffects.mk false (some "mock")) := by
  have h := claim_C8_translate_catches tsDownloadedSample "hello" none turkishLang {}
    sampleDetection (Except.error ()) rfl
  exact ⟨h.1, h.2 "en2tr-small" (by decide) (by decide) () rfl⟩

/-! ## Claim C9 (short-text detection) -/

/-- Claim C9: for any text whose trimmed length is below 10 (including the empty
text), `detectLanguage` returns the default result — English, confidence `0.3`, no
alternatives — for every behavior of the two detectors, i.e. without depending on
them at all. -/
theorem claim_C9_short_text_default (text francResult : String)
    (langdetectResults : Option (List LangdetectEntry)) (detectorsThrow : Bool)
    (h : (jsTrim text).length < 10) :
    detectLanguage text francResult langdetectResults detectorsThrow =
      { detectedLanguage := englishLang, confidence := 0.3,
        alternativeLanguages := [] } := by
  rw [detectLanguage, if_pos (Or.inr h)]
  rfl

theorem claim_C9_witness :
    detectLanguage "short" "tur" (some [⟨"tr", 0.8⟩]) false =
      { detectedLanguage := englishLang, confidence := 0.3,
        alternativeLanguages := [] } :=
  claim_C9_short_text_default "short" "tur" (some [⟨"tr", 0.8⟩]) false (by decide)

/-! ## Claim C3 (confidence range) -/

/-- Claim C3, code evaluation at the failing input: on a length-one prediction
vector the softmax is the singleton distribution `[1]`, the entropy and its
normalizer `Math.log(1)` are both `0`, and `normalizedEntropy = 0 / 0 = NaN`
(`none`), which propagates through the `[0, 1]` clamp to the returned confidence —
contradicting the claim that every returned confidence satisfies
`0 ≤ confidence ≤ 1`.  Only `exp(0) = 1` and `log(1) = 0`, which hold exactly in
IEEE-754, are assumed of the transcendental primitives. -/
theorem claim_C3_singleton_confidence_nan (expF logF : ℚ → ℚ) (powF : ℚ → ℚ → ℚ)
    (hexp : expF 0 = 1) (hlog : logF 1 = 0) :
    calculateTranslationConfidence expF logF powF [5] = none := by
  rw [calculateTranslationConfidence]
  simp [softmax, jsMaxQ, jsDiv00, hexp, hlog]

theorem claim_C3_witness :
    calculateTranslationConfidence (fun _ => 1) (fun _ => 0) (fun _ _ => 1) [5] =
      none :=
  claim_C3_singleton_confidence_nan (fun _ => 1) (fun _ => 0) (fun _ _ => 1) rfl rfl

end PolyglotKey
